import Mathlib

/-
Verification of the EventDispatcher library (latest design: the class with
Set-backed buckets, an options object `{validEventTypes, triggerLastEvent}`,
`on/one/off/trigger`, a per-type last-event cache, and an `Api()` mixin
factory that creates a fresh dispatcher per host instance), together with
the `Event` value class.

JavaScript runtime features are modelled as follows:
 * JS objects used as string-keyed maps (`callbacks`, `lastEvents`, event
   objects) become association lists `List (String × α)`; property
   assignment keeps the position of an existing key and appends new keys,
   matching JS insertion-order semantics; `delete` removes the key.
 * A JS `Set` of callbacks becomes a `List` of handlers that is kept
   duplicate-free by `add` (membership tested by handler identity).
 * Function identity becomes a numeric id carried next to the behaviour.
 * Handler behaviour is a small deep embedding (`HBody`): a plain function
   computing its return value from receiver and event, a branch on the
   event, a re-entrant `trigger` call, and the self-deregistering wrapper
   that `one` builds.  Re-entrant triggers consume fuel; all other paths
   are fuel-free, so theorems about non-re-entrant runs hold for any fuel.
 * `throw` becomes `Except`; the error value carries the dispatcher state
   at the moment of the throw, so "state after a failed call" is visible.
 * Every `callback.call(ctx, eventObject)` site records a trace entry
   `(handler id, receiver, event object)`; invocation claims (how often,
   in which order, with which arguments and receiver) are statements
   about this trace.
-/

/-- JS values appearing as payload fields and handler return values. -/
inductive Val where
  | vStr (s : String)
  | vNum (n : Int)
  | vBool (b : Bool)
  | vUndef
  deriving DecidableEq, Repr

/-- A JS object: ordered association list of string keys to values. -/
abbrev EventObject := List (String × Val)

/-- A trigger payload (the `args` record). -/
abbrev Payload := List (String × Val)

/-- JS property read `l[k]`. -/
def alGet {α : Type} (l : List (String × α)) (k : String) : Option α :=
  match l with
  | [] => none
  | (k', v) :: rest => if k' == k then some v else alGet rest k

/-- JS property assignment `l[k] = v`: overwrite in place, else append. -/
def alSet {α : Type} (l : List (String × α)) (k : String) (v : α) :
    List (String × α) :=
  match l with
  | [] => [(k, v)]
  | (k', v') :: rest =>
      if k' == k then (k', v) :: rest else (k', v') :: alSet rest k v

/-- JS `delete l[k]`. -/
def alDel {α : Type} (l : List (String × α)) (k : String) :
    List (String × α) :=
  match l with
  | [] => []
  | (k', v') :: rest =>
      if k' == k then rest else (k', v') :: alDel rest k

/-- The `Event` class constructor: `this.type = type` followed by
`defineProperties`, which assigns every payload property in order
(and can therefore overwrite the `type` field). -/
def mkEvent (t : String) (props : Payload) : EventObject :=
  props.foldl (fun obj kv => alSet obj kv.1 kv.2) [("type", Val.vStr t)]

/-- Reading `.type` from an event object (trigger does this when it is
handed a pre-built event object). -/
def eventTypeOf (e : EventObject) : String :=
  match alGet e "type" with
  | some (Val.vStr s) => s
  | _ => ""

/-- A validity rule: either a literal string or a regular expression,
the latter modelled as its test predicate on strings. -/
inductive Rule where
  | text (s : String)
  | pattern (test : String → Bool)

/-- One rule applied to one candidate type (`isRegexp` dispatch in
`isValidEvent`: `validEvent.test(eventType)` vs `eventType === validEvent`). -/
def ruleMatches (r : Rule) (t : String) : Bool :=
  match r with
  | .text s => t == s
  | .pattern p => p t

/-- Inner loop of `isValidEvent`: iterate the ruleset for one candidate
type, incrementing `count` at every matching rule; return `none` when the
early `return true` fires (`count` reached `total`), else the new count. -/
def isValidInner (total : Nat) (t : String) :
    List Rule → Nat → Option Nat
  | [], count => some count
  | r :: rs, count =>
      if ruleMatches r t then
        if count + 1 == total then none
        else isValidInner total t rs (count + 1)
      else isValidInner total t rs count

/-- Outer loop of `isValidEvent` over the submitted event types. -/
def isValidOuter (rules : List Rule) (total : Nat) :
    List String → Nat → Bool
  | [], _ => false
  | t :: ts, count =>
      match isValidInner total t rules count with
      | none => true
      | some c => isValidOuter rules total ts c

/-- `EventDispatcher.isValidEvent`, after `asArray` normalisation: the
counting loop over the submitted types and the ruleset. -/
def isValidEvent (rules : List Rule) (eventTypes : List String) : Bool :=
  isValidOuter rules eventTypes.length eventTypes 0

/-- What the specification asserts validation does: every submitted type
independently satisfies at least one rule. -/
def specValidAll (rules : List Rule) (eventTypes : List String) : Bool :=
  eventTypes.all (fun t => rules.any (fun r => ruleMatches r t))

/-- Behaviour of a registered handler (deep embedding).  `done f`
computes the return value from the receiver (context id) and the event;
`branch` inspects the event; `seqTrigger` performs a re-entrant
`this.trigger(t, args)` and continues; `wrapper` is the closure that
`one` registers: it deregisters itself via `off` and then forwards to
the wrapped handler with the current callback context. -/
inductive HBody where
  | done (f : Nat → EventObject → Val)
  | branch (c : EventObject → Bool) (b1 b2 : HBody)
  | seqTrigger (t : String) (args : Payload) (rest : HBody)
  | wrapper (t : String) (innerId : Nat) (innerBody : HBody)

/-- Size of a handler body, used as the secondary termination measure. -/
def hsize : HBody → Nat
  | .done _ => 1
  | .branch _ b1 b2 => 1 + hsize b1 + hsize b2
  | .seqTrigger _ _ rest => 1 + hsize rest
  | .wrapper _ _ b => 1 + hsize b

/-- A handler value: its identity and its behaviour. -/
abbrev Handler := Nat × HBody

/-- Dispatcher state: the fields of the `EventDispatcher` class, plus a
`nextId` allocator for the fresh closure that `one` creates. -/
structure DState where
  validEventTypes : List Rule
  callbacks : List (String × List Handler)
  lastEvents : List (String × EventObject)
  disabled : Bool
  callbackContext : Nat
  triggerLastEvent : Bool
  nextId : Nat

/-- The constructor `new EventDispatcher({validEventTypes, triggerLastEvent})`.
`callbackContext = this` is modelled as context id `0`. -/
def mkDispatcher (rules : List Rule) (tle : Bool) : DState :=
  { validEventTypes := rules
    callbacks := []
    lastEvents := []
    disabled := false
    callbackContext := 0
    triggerLastEvent := tle
    nextId := 0 }

/-- The default ruleset `[/.*/]`: a pattern matching anything. -/
def defaultRules : List Rule := [Rule.pattern (fun _ => true)]

/-- The single error kind `Invalid Event Type: ...`, carrying the
offending type, plus an artificial out-of-fuel marker for non-terminating
re-entrant runs.  Both carry the dispatcher state at the throw. -/
inductive DErr where
  | invalidType (t : String)
  | outOfFuel

/-- One recorded handler invocation: handler id, receiver (context id),
and the event object passed as sole argument. -/
abbrev Call := Nat × Nat × EventObject

/-- `hasCallbacks`: `eventType in this.callbacks`. -/
def hasCallbacks (s : DState) (t : String) : Bool :=
  (alGet s.callbacks t).isSome

/-- `EventDispatcher.off(eventType, callback?)`: validate, no-op when the
bucket is absent, delete the whole key when no callback is given,
otherwise `Set.delete` the one handler with that identity.  Note that an
emptied bucket is left in place under its key. -/
def offFn (s : DState) (t : String) (cb : Option Nat) :
    Except (DErr × DState) DState :=
  if isValidEvent s.validEventTypes [t] then
    if hasCallbacks s t then
      match cb with
      | none => .ok { s with callbacks := alDel s.callbacks t }
      | some i =>
          let bucket := ((alGet s.callbacks t).getD []).filter (fun h => h.1 != i)
          .ok { s with callbacks := alSet s.callbacks t bucket }
    else .ok s
  else .error (.invalidType t, s)

mutual

/-- Run one handler body.  `selfId` is the identity under which the
running closure was registered (used by the `one` wrapper to deregister
itself), `recv` the receiver it was called with. -/
def execB (fuel : Nat) (s : DState) (selfId recv : Nat) (e : EventObject)
    (b : HBody) : Except (DErr × DState) (Val × DState × List Call) :=
  match b with
  | .done f => .ok (f recv e, s, [])
  | .branch c b1 b2 =>
      if c e then execB fuel s selfId recv e b1
      else execB fuel s selfId recv e b2
  | .seqTrigger t args rest =>
      if hf : fuel = 0 then .error (.outOfFuel, s)
      else
        match triggerCore (fuel - 1) s t (mkEvent t args) with
        | .error err => .error err
        | .ok (_, s', tr) =>
            match execB fuel s' selfId recv e rest with
            | .error err => .error err
            | .ok (v, s'', tr') => .ok (v, s'', tr ++ tr')
  | .wrapper t innerId innerBody =>
      match offFn s t (some selfId) with
      | .error err => .error err
      | .ok s' =>
          let ctx := s'.callbackContext
          match execB fuel s' innerId ctx e innerBody with
          | .error err => .error err
          | .ok (v, s'', tr) => .ok (v, s'', (innerId, ctx, e) :: tr)
termination_by (3 * fuel + 1, hsize b)
decreasing_by
  all_goals simp_wf
  all_goals
    first
      | (apply Prod.Lex.left; omega)
      | (apply Prod.Lex.right; simp [hsize]; omega)
      | (apply Prod.Lex.right; simp [hsize])
      | (apply Prod.Lex.right; omega)

/-- The `.map(callback => callback.call(this.callbackContext || this,
eventObject))` loop over the snapshot of the bucket, collecting return
values in order and threading the state; the receiver is re-read from the
current state at every call. -/
def runList (fuel : Nat) (s : DState) (hs : List Handler) (e : EventObject) :
    Except (DErr × DState) (List Val × DState × List Call) :=
  match hs with
  | [] => .ok ([], s, [])
  | (i, b) :: rest =>
      let ctx := s.callbackContext
      match execB fuel s i ctx e b with
      | .error err => .error err
      | .ok (v, s', tr) =>
          match runList fuel s' rest e with
          | .error err => .error err
          | .ok (vs, s'', tr') => .ok (v :: vs, s'', ((i, ctx, e) :: tr) ++ tr')
termination_by (3 * fuel + 2, hs.length)
decreasing_by
  all_goals simp_wf
  all_goals
    first
      | (apply Prod.Lex.left; omega)
      | (apply Prod.Lex.right; simp [hsize]; omega)
      | (apply Prod.Lex.right; simp [hsize])
      | (apply Prod.Lex.right; omega)

/-- Body of `EventDispatcher.trigger` after the event object and event
type have been computed: validate, record into `lastEvents`, return
`null` when disabled or the key is absent, otherwise run the snapshot
(`Array.from`) of the bucket. -/
def triggerCore (fuel : Nat) (s : DState) (t : String) (e : EventObject) :
    Except (DErr × DState) (Option (List Val) × DState × List Call) :=
  if isValidEvent s.validEventTypes [t] then
    let s₁ : DState := { s with lastEvents := alSet s.lastEvents t e }
    if s₁.disabled || !(hasCallbacks s₁ t) then .ok (none, s₁, [])
    else
      match runList fuel s₁ ((alGet s₁.callbacks t).getD []) e with
      | .error err => .error err
      | .ok (vs, s', tr) => .ok (some vs, s', tr)
  else .error (.invalidType t, s)
termination_by (3 * fuel + 3, 0)
decreasing_by
  all_goals simp_wf
  all_goals
    first
      | (apply Prod.Lex.left; omega)
      | (apply Prod.Lex.right; simp [hsize]; omega)
      | (apply Prod.Lex.right; simp [hsize])
      | (apply Prod.Lex.right; omega)

end

/-- `EventDispatcher.on(eventType, callback, options?)`: validate, compute
the effective `triggerLastEvent` flag as `options?.triggerLastEvent ||
this.triggerLastEvent`, create the bucket if absent, `Set.add` the
callback (identity-deduplicated), then, when the flag is set and a last
event is cached for the type, invoke the callback immediately with that
cached event and the current callback context.  Returns the new state and
the calls performed. -/
def onFn (fuel : Nat) (s : DState) (t : String) (cb : Handler)
    (opts : Option Bool) : Except (DErr × DState) (DState × List Call) :=
  if isValidEvent s.validEventTypes [t] then
    let tle := opts.getD false || s.triggerLastEvent
    let bucket :=
      match alGet s.callbacks t with
      | none => [cb]
      | some l => if l.any (fun h => h.1 == cb.1) then l else l ++ [cb]
    let s₁ : DState := { s with callbacks := alSet s.callbacks t bucket }
    if tle then
      match alGet s₁.lastEvents t with
      | some e =>
          let ctx := s₁.callbackContext
          match execB fuel s₁ cb.1 ctx e cb.2 with
          | .error err => .error err
          | .ok (_, s₂, tr) => .ok (s₂, (cb.1, ctx, e) :: tr)
      | none => .ok (s₁, [])
    else .ok (s₁, [])
  else .error (.invalidType t, s)

/-- `EventDispatcher.one(eventType, callback, options?)`: validate, build
the fresh self-deregistering wrapper closure (allocated at `nextId`), and
register it through `on`, forwarding the options. -/
def oneFn (fuel : Nat) (s : DState) (t : String) (cb : Handler)
    (opts : Option Bool) : Except (DErr × DState) (DState × List Call) :=
  if isValidEvent s.validEventTypes [t] then
    let w : Handler := (s.nextId, .wrapper t cb.1 cb.2)
    onFn fuel { s with nextId := s.nextId + 1 } t w opts
  else .error (.invalidType t, s)

/-- `EventDispatcher.trigger`: the single implementation behind both
overloads.  The argument is the runtime tagged form of
`eventTypeOrEventObject` (the `isEventObject` duck test separates the two
TypeScript overloads): a plain event-type string with an optional `args`
record, or a pre-built event object whose `type` field supplies the event
type.  The shared body is `triggerCore`. -/
def triggerFn (fuel : Nat) (s : DState) (x : Sum String EventObject)
    (args : Option Payload) :
    Except (DErr × DState) (Option (List Val) × DState × List Call) :=
  let e := match x with
    | .inr eo => eo
    | .inl t => mkEvent t (args.getD [])
  let t := match x with
    | .inr eo => eventTypeOf eo
    | .inl t => t
  triggerCore fuel s t e

/-- `trigger(eventType, args?)` overload. -/
def triggerByType (fuel : Nat) (s : DState) (t : String) (args : Payload) :
    Except (DErr × DState) (Option (List Val) × DState × List Call) :=
  triggerFn fuel s (.inl t) (some args)

/-- `trigger(eventObject)` overload. -/
def triggerObj (fuel : Nat) (s : DState) (e : EventObject) :
    Except (DErr × DState) (Option (List Val) × DState × List Call) :=
  triggerFn fuel s (.inr e) none

/-- `setCallbackContext(context)`. -/
def setCallbackContext (s : DState) (c : Nat) : DState :=
  { s with callbackContext := c }

/-- `disable()`. -/
def disableFn (s : DState) : DState := { s with disabled := true }

/-- `enable()`. -/
def enableFn (s : DState) : DState := { s with disabled := false }

/-- `clear()`. -/
def clearFn (s : DState) : DState := { s with callbacks := [] }

/-- `getLastEventObjectOf(eventType)`. -/
def getLastEventObjectOf (s : DState) (t : String) : Option EventObject :=
  alGet s.lastEvents t

/-- `removeLastEventObjectOf(eventType)`: returns the removed entry (or
`none`) and the new state. -/
def removeLastEventObjectOf (s : DState) (t : String) :
    Option EventObject × DState :=
  match alGet s.lastEvents t with
  | some e => (some e, { s with lastEvents := alDel s.lastEvents t })
  | none => (none, s)

/-- `Api()` captures `{validEventTypes, triggerLastEvent}` from the
originating dispatcher; the returned class's constructor runs
`createInstance()`, i.e. builds a brand new `EventDispatcher` from just
that configuration. -/
def apiNewInstance (s : DState) : DState :=
  mkDispatcher s.validEventTypes s.triggerLastEvent

/-- A host object built from the class returned by `Api()`: it owns its
`eventDispatcher` field. -/
structure ApiHost where
  ed : DState

/-- The constructor of the class returned by `Api()`. -/
def hostNew (origin : DState) : ApiHost := ⟨apiNewInstance origin⟩

/-- The host's `on(eventType, fn)` (no options parameter). -/
def hostOn (fuel : Nat) (a : ApiHost) (t : String) (cb : Handler) :
    Except (DErr × DState) (ApiHost × List Call) :=
  match onFn fuel a.ed t cb none with
  | .error err => .error err
  | .ok (s, tr) => .ok (⟨s⟩, tr)

/-- The host's `off(eventType, fn?)`. -/
def hostOff (a : ApiHost) (t : String) (cb : Option Nat) :
    Except (DErr × DState) ApiHost :=
  match offFn a.ed t cb with
  | .error err => .error err
  | .ok s => .ok ⟨s⟩

/-- The host's `one(eventType, fn)`. -/
def hostOne (fuel : Nat) (a : ApiHost) (t : String) (cb : Handler) :
    Except (DErr × DState) (ApiHost × List Call) :=
  match oneFn fuel a.ed t cb none with
  | .error err => .error err
  | .ok (s, tr) => .ok (⟨s⟩, tr)

/-- The host's `trigger`. -/
def hostTrigger (fuel : Nat) (a : ApiHost) (x : Sum String EventObject)
    (args : Option Payload) :
    Except (DErr × DState) (Option (List Val) × ApiHost × List Call) :=
  match triggerFn fuel a.ed x args with
  | .error err => .error err
  | .ok (r, s, tr) => .ok (r, ⟨s⟩, tr)

/-! ### Association-list lemmas -/

theorem alGet_alSet_self {α : Type} (l : List (String × α)) (k : String) (v : α) :
    alGet (alSet l k v) k = some v := by
  induction l with
  | nil => simp [alGet, alSet]
  | cons p rest ih =>
      by_cases h : p.1 == k
      · simp [alGet, alSet, h]
      · simp [alGet, alSet, h, ih]

theorem alGet_alSet_ne {α : Type} (l : List (String × α)) (k k' : String) (v : α)
    (h : k' ≠ k) : alGet (alSet l k v) k' = alGet l k' := by
  induction l with
  | nil => simp [alGet, alSet]; exact fun hh => h hh.symm
  | cons p rest ih =>
      by_cases hp : p.1 == k
      · have hpk : p.1 = k := by simpa using hp
        have : ¬ (p.1 == k') := by simp [hpk]; exact fun hh => h hh.symm
        simp [alGet, alSet, hp, this]
      · simp [alGet, alSet, hp, ih]

theorem alSet_of_alGet_none {α : Type} (l : List (String × α)) (k : String) (v : α)
    (h : alGet l k = none) : alSet l k v = l ++ [(k, v)] := by
  induction l with
  | nil => simp [alSet]
  | cons p rest ih =>
      by_cases hp : p.1 == k
      · simp [alGet, hp] at h
      · simp [alGet, hp] at h
        simp [alSet, hp, ih h]

theorem alSet_alSet {α : Type} (l : List (String × α)) (k : String) (v w : α) :
    alSet (alSet l k v) k w = alSet l k w := by
  induction l with
  | nil => simp [alSet]
  | cons p rest ih =>
      by_cases hp : p.1 == k
      · simp [alSet, hp]
      · simp [alSet, hp, ih]

theorem alGet_append {α : Type} (l₁ l₂ : List (String × α)) (k : String) :
    alGet (l₁ ++ l₂) k =
      (match alGet l₁ k with
       | some v => some v
       | none => alGet l₂ k) := by
  induction l₁ with
  | nil => simp [alGet]
  | cons p rest ih =>
      by_cases hp : p.1 == k
      · simp [alGet, hp]
      · simp [alGet, hp, ih]

/-! ### Interpreter lemmas -/

/-- A bucket of plain handlers built from (id, return-function) pairs. -/
def pureBucket (ps : List (Nat × (Nat → EventObject → Val))) : List Handler :=
  ps.map fun p => (p.1, HBody.done p.2)

/-- A bucket of plain handlers (each a `done f`): the delivery loop never
fails, leaves the state untouched, returns the handlers' values in bucket
order, and records one call per handler, in bucket order, all with the
same receiver (the current callback context) and the same event object. -/
theorem runList_pure_map (fuel : Nat) (s : DState) (e : EventObject)
    (ps : List (Nat × (Nat → EventObject → Val))) :
    runList fuel s (ps.map fun p => (p.1, HBody.done p.2)) e =
      .ok (ps.map (fun p => p.2 s.callbackContext e), s,
           ps.map (fun p => (p.1, s.callbackContext, e))) := by
  induction ps with
  | nil => simp [runList]
  | cons p rest ih => simp [runList, execB, ih]

/-- `runList_pure_map` restated on `pureBucket` (kept as the head symbol
so rewriting works on composite index lists). -/
theorem runList_pure (fuel : Nat) (s : DState) (e : EventObject)
    (ps : List (Nat × (Nat → EventObject → Val))) :
    runList fuel s (pureBucket ps) e =
      .ok (ps.map (fun p => p.2 s.callbackContext e), s,
           ps.map (fun p => (p.1, s.callbackContext, e))) :=
  runList_pure_map fuel s e ps

/-! ### Claim C1 -/

/-- Claim C1: the claim states that a multi-type submission is valid iff
EVERY submitted type independently satisfies at least one rule,
regardless of how many rules a single member matches.  The code's
counting loop violates this: with the ruleset `["a", "a"]` the single
valid member `"a"` matches two rules, the running count reaches the
sequence length, and `isValidEvent` accepts `["a", "b"]` even though
`"b"` satisfies no rule (as `specValidAll` shows).  This contradicts the
stated all-members semantics (the count was clearly meant to tally
validated members, not rule matches), so the code is the bug. -/
theorem claim1_validation_overcount_bug :
    isValidEvent [Rule.text "a", Rule.text "a"] ["a", "b"] = true ∧
    specValidAll [Rule.text "a", Rule.text "a"] ["a", "b"] = false :=
  ⟨rfl, rfl⟩

/-! ### Claim C4 -/

/-- Claim C4 (amended): `off(T, h)` removes every handler with `h`'s
identity from `T`'s bucket but never drops the key `T` itself: the
(possibly empty) bucket stays in the registry, so a key may map to an
empty handler collection, contrary to the claimed invariant. -/
theorem claim4_off_keeps_empty_bucket (s : DState) (t : String) (i : Nat)
    (l : List Handler)
    (hv : isValidEvent s.validEventTypes [t] = true)
    (hb : alGet s.callbacks t = some l) :
    offFn s t (some i) =
      .ok { s with callbacks := alSet s.callbacks t (l.filter (fun h => h.1 != i)) } ∧
    alGet (alSet s.callbacks t (l.filter (fun h => h.1 != i))) t =
      some (l.filter (fun h => h.1 != i)) := by
  constructor
  · simp [offFn, hv, hasCallbacks, hb]
  · exact alGet_alSet_self ..

/-- Handler used in the C4 scenario. -/
def c4Handler : Handler := (1, HBody.done fun _ _ => Val.vUndef)

/-- Dispatcher used in the C4 scenario. -/
def c4Start : DState := mkDispatcher [Rule.text "a"] false

/-- The C4 run: register one handler for `"a"`, then remove it. -/
def c4Final : Option DState :=
  match onFn 1 c4Start "a" c4Handler none with
  | .ok (s1, _) =>
      match offFn s1 "a" (some 1) with
      | .ok s2 => some s2
      | .error _ => none
  | .error _ => none

/-- Claim C4 counterexample: after `on("a", h)` then `off("a", h)` removes
the last remaining handler, the registry still contains the key `"a"`
(with an empty bucket), refuting "the key T itself is dropped from the
registry". -/
theorem claim4_counterexample : c4Final.map DState.callbacks = some [("a", [])] := by
  simp [c4Final, c4Start, c4Handler, onFn, offFn, hasCallbacks, mkDispatcher,
        isValidEvent, isValidOuter, isValidInner, ruleMatches, alGet, alSet]

/-- Claim C4 witness: the amended theorem applied to a concrete
one-handler bucket. -/
theorem claim4_witness :
    offFn { c4Start with callbacks := [("a", [c4Handler])] } "a" (some 1) =
      .ok { { c4Start with callbacks := [("a", [c4Handler])] } with
              callbacks := alSet [("a", [c4Handler])] "a"
                             ([c4Handler].filter (fun h => h.1 != 1)) } ∧
    alGet (alSet [("a", [c4Handler])] "a" ([c4Handler].filter (fun h => h.1 != 1))) "a" =
      some ([c4Handler].filter (fun h => h.1 != 1)) :=
  claim4_off_keeps_empty_bucket _ "a" 1 [c4Handler] rfl rfl

/-! ### Claim C2 -/

/-- Claim C2 (amended): every `trigger(T, payload)` and
`trigger(eventObject)` call on a valid type records the delivered event
object into the last-event cache, including when the dispatcher is
disabled (regardless of what handlers are registered) or when the
registry has no bucket for T, and in those cases returns null (`none`)
with no handler invocation.  However "no registered handlers" only
yields null when the bucket KEY is absent: a bucket that exists but was
emptied by `off` makes trigger return the empty array (`some []`)
instead of null, still invoking no handler (see the counterexample).
Here `s` is any valid-for-T dispatcher without a bucket for T, `sD` any
DISABLED dispatcher (its registry is unconstrained, so it covers
registered handlers), and `sE` any enabled dispatcher whose bucket for T
was emptied. -/
theorem claim2_trigger_caches_and_null_vs_empty
    (fuel : Nat) (s sD sE : DState) (t : String) (args : Payload) (e : EventObject)
    (hv : isValidEvent s.validEventTypes [t] = true)
    (hts : eventTypeOf e = t)
    (hnb : alGet s.callbacks t = none)
    (hvD : isValidEvent sD.validEventTypes [t] = true)
    (hdD : sD.disabled = true)
    (hvE : isValidEvent sE.validEventTypes [t] = true)
    (hdE : sE.disabled = false)
    (hbE : alGet sE.callbacks t = some []) :
    triggerByType fuel s t args =
      .ok (none, { s with lastEvents := alSet s.lastEvents t (mkEvent t args) }, []) ∧
    triggerObj fuel s e =
      .ok (none, { s with lastEvents := alSet s.lastEvents t e }, []) ∧
    triggerByType fuel sD t args =
      .ok (none, { sD with lastEvents := alSet sD.lastEvents t (mkEvent t args) }, []) ∧
    triggerObj fuel sD e =
      .ok (none, { sD with lastEvents := alSet sD.lastEvents t e }, []) ∧
    triggerByType fuel sE t args =
      .ok (some [], { sE with lastEvents := alSet sE.lastEvents t (mkEvent t args) }, []) := by
  refine ⟨?_, ?_, ?_, ?_, ?_⟩ <;>
    simp [triggerByType, triggerObj, triggerFn, triggerCore, runList,
          hasCallbacks, hts, hv, hnb, hvD, hdD, hvE, hdE, hbE]

/-- Handler used in the C2 scenario. -/
def c2Handler : Handler := (1, HBody.done fun _ _ => Val.vUndef)

/-- The C2 run: register a handler for `"a"`, remove it again (leaving an
empty bucket), then trigger `"a"`; the result is the trigger's return
value and the calls it performed. -/
def c2Final : Option (Option (List Val) × List Call) :=
  match onFn 1 (mkDispatcher [Rule.text "a"] false) "a" c2Handler none with
  | .ok (s1, _) =>
      match offFn s1 "a" (some 1) with
      | .ok s2 =>
          match triggerByType 1 s2 "a" [] with
          | .ok (r, _, tr) => some (r, tr)
          | .error _ => none
      | .error _ => none
  | .error _ => none

/-- Claim C2 counterexample: after `on("a", h); off("a", h)` no handlers
are registered for `"a"`, yet `trigger("a")` returns the empty array
`some []` rather than the claimed null (`none`); no handler is invoked. -/
theorem claim2_counterexample : c2Final = some (some [], []) := by
  simp [c2Final, c2Handler, onFn, offFn, triggerByType, triggerFn, triggerCore,
        runList, hasCallbacks, mkDispatcher, isValidEvent, isValidOuter,
        isValidInner, ruleMatches, alGet, alSet, mkEvent]

/-- Dispatcher with an emptied bucket used in the C2 witness. -/
def c2WitState : DState :=
  { mkDispatcher [Rule.text "a"] false with callbacks := [("a", [])] }

/-- Disabled dispatcher WITH a registered handler for `"a"`, used in the
C2 witness for the disabled conjuncts. -/
def c2DisabledState : DState :=
  { mkDispatcher [Rule.text "a"] false with
      callbacks := [("a", [(1, HBody.done fun _ _ => Val.vUndef)])]
      disabled := true }

/-- The pre-built event object used in the C2 witness. -/
def c2Evt : EventObject := [("type", Val.vStr "a")]

/-- Claim C2 witness: the amended theorem applied at fuel 1 to a fresh
dispatcher (no bucket), a disabled dispatcher with a registered handler,
and a dispatcher with an emptied bucket. -/
theorem claim2_witness :
    triggerByType 1 (mkDispatcher [Rule.text "a"] false) "a" [("x", Val.vNum 1)] =
      .ok (none,
           { mkDispatcher [Rule.text "a"] false with
               lastEvents := alSet (mkDispatcher [Rule.text "a"] false).lastEvents "a"
                               (mkEvent "a" [("x", Val.vNum 1)]) }, []) ∧
    triggerObj 1 (mkDispatcher [Rule.text "a"] false) c2Evt =
      .ok (none,
           { mkDispatcher [Rule.text "a"] false with
               lastEvents := alSet (mkDispatcher [Rule.text "a"] false).lastEvents "a"
                               c2Evt }, []) ∧
    triggerByType 1 c2DisabledState "a" [("x", Val.vNum 1)] =
      .ok (none,
           { c2DisabledState with
               lastEvents := alSet c2DisabledState.lastEvents "a"
                               (mkEvent "a" [("x", Val.vNum 1)]) }, []) ∧
    triggerObj 1 c2DisabledState c2Evt =
      .ok (none,
           { c2DisabledState with
               lastEvents := alSet c2DisabledState.lastEvents "a" c2Evt }, []) ∧
    triggerByType 1 c2WitState "a" [("x", Val.vNum 1)] =
      .ok (some [],
           { c2WitState with
               lastEvents := alSet c2WitState.lastEvents "a"
                               (mkEvent "a" [("x", Val.vNum 1)]) }, []) :=
  claim2_trigger_caches_and_null_vs_empty 1 (mkDispatcher [Rule.text "a"] false)
    c2DisabledState c2WitState "a" [("x", Val.vNum 1)] c2Evt
    rfl rfl rfl rfl rfl rfl rfl rfl

/-! ### Event-object construction lemmas -/

theorem foldl_alSet_fresh (args : Payload) (obj : EventObject)
    (hfresh : ∀ kv ∈ args, alGet obj kv.1 = none)
    (hnd : (args.map Prod.fst).Nodup) :
    args.foldl (fun o kv => alSet o kv.1 kv.2) obj = obj ++ args := by
  induction args generalizing obj with
  | nil => simp
  | cons kv rest ih =>
      have h1 : alSet obj kv.1 kv.2 = obj ++ [kv] := by
        rw [alSet_of_alGet_none _ _ _ (hfresh kv (by simp))]
      have hcons : (kv.1 :: rest.map Prod.fst).Nodup := by simpa using hnd
      have hnotin : kv.1 ∉ rest.map Prod.fst := (List.nodup_cons.mp hcons).1
      have hnd' : (rest.map Prod.fst).Nodup := (List.nodup_cons.mp hcons).2
      have hne : ∀ kv' ∈ rest, kv.1 ≠ kv'.1 := fun kv' hm heq =>
        hnotin (heq ▸ List.mem_map_of_mem Prod.fst hm)
      have hfresh' : ∀ kv' ∈ rest, alGet (obj ++ [kv]) kv'.1 = none := by
        intro kv' hm
        rw [alGet_append, hfresh kv' (by simp [hm])]
        simp [alGet]
        exact fun heq => hne kv' hm heq
      simp only [List.foldl_cons, h1, ih (obj ++ [kv]) hfresh' hnd']
      simp

/-- When the payload has no `type` key (and no duplicate keys), the
constructed event object is exactly the `type` field followed by the
payload fields in order. -/
theorem mkEvent_no_type_key (t : String) (args : Payload)
    (hnt : "type" ∉ args.map Prod.fst)
    (hnd : (args.map Prod.fst).Nodup) :
    mkEvent t args = ("type", Val.vStr t) :: args := by
  unfold mkEvent
  rw [foldl_alSet_fresh args [("type", Val.vStr t)] ?_ hnd]
  · simp
  · intro kv hm
    have : kv.1 ≠ "type" := by
      intro h
      exact hnt (h ▸ List.mem_map_of_mem Prod.fst hm)
    simp [alGet]
    exact fun h => this h.symm

/-! ### Registration lemmas -/

/-- Registering a handler whose identity is not yet in the bucket appends
it at the end of the bucket, and performs no call when no last event is
cached for the type. -/
theorem onFn_append (fuel : Nat) (s : DState) (t : String) (cb : Handler)
    (l : List Handler)
    (hv : isValidEvent s.validEventTypes [t] = true)
    (hb : alGet s.callbacks t = some l)
    (hfresh : l.any (fun h => h.1 == cb.1) = false)
    (hle : alGet s.lastEvents t = none) :
    onFn fuel s t cb none =
      .ok ({ s with callbacks := alSet s.callbacks t (l ++ [cb]) }, []) := by
  cases htle : s.triggerLastEvent <;>
    simp [onFn, hv, hb, hfresh, hle, htle]

/-- Registering a fresh handler for a type with no bucket creates the
singleton bucket, and performs no call when no last event is cached. -/
theorem onFn_create (fuel : Nat) (s : DState) (t : String) (cb : Handler)
    (hv : isValidEvent s.validEventTypes [t] = true)
    (hb : alGet s.callbacks t = none)
    (hle : alGet s.lastEvents t = none) :
    onFn fuel s t cb none =
      .ok ({ s with callbacks := alSet s.callbacks t [cb] }, []) := by
  cases htle : s.triggerLastEvent <;>
    simp [onFn, hv, hb, hle, htle]

/-- Call-trace entries produced for a pure bucket, counted by handler id,
agree with id multiplicity in the bucket. -/
theorem countP_calls (ps : List (Nat × (Nat → EventObject → Val)))
    (ctx : Nat) (e : EventObject) (j : Nat) :
    ((ps.map fun p => (p.1, ctx, e)).countP (fun c => c.1 == j)) =
      (ps.map Prod.fst).count j := by
  induction ps with
  | nil => simp
  | cons p rest ih =>
      simp only [List.map_cons, List.countP_cons, List.count_cons, ih]

/-! ### Claim C3 -/

/-- Claim C3: on an enabled dispatcher, registration appends a fresh
handler at the end of the type's bucket (so bucket order is registration
order), and `trigger(T, args)` invokes every handler of the bucket
exactly once, in bucket order, recording for each one a call whose
receiver is the current invocation context and whose sole argument is
the event object, and returns the handlers' return values in the same
order (one per handler, so the result has length N).  Synchrony is
expressed by the calls being part of the trigger computation itself. -/
theorem claim3_trigger_invokes_in_order (fuel : Nat) (s : DState) (t : String)
    (args : Payload) (cb : Handler)
    (ps : List (Nat × (Nat → EventObject → Val)))
    (hv : isValidEvent s.validEventTypes [t] = true)
    (hd : s.disabled = false)
    (hb : alGet s.callbacks t = some (pureBucket ps))
    (hle : alGet s.lastEvents t = none)
    (hfresh : ∀ p ∈ ps, p.1 ≠ cb.1)
    (hnd : (ps.map Prod.fst).Nodup) :
    onFn fuel s t cb none =
      .ok ({ s with callbacks := alSet s.callbacks t (pureBucket ps ++ [cb]) }, []) ∧
    triggerByType fuel s t args =
      .ok (some (ps.map fun p => p.2 s.callbackContext (mkEvent t args)),
           { s with lastEvents := alSet s.lastEvents t (mkEvent t args) },
           ps.map fun p => (p.1, s.callbackContext, mkEvent t args)) ∧
    (ps.map fun p => p.2 s.callbackContext (mkEvent t args)).length = ps.length ∧
    ∀ j ∈ ps.map Prod.fst,
      ((ps.map fun p => (p.1, s.callbackContext, mkEvent t args)).countP
        (fun c => c.1 == j)) = 1 := by
  refine ⟨?_, ?_, by simp, ?_⟩
  · refine onFn_append fuel s t cb _ hv hb ?_ hle
    rw [List.any_eq_false]
    intro h hm
    simp only [pureBucket, List.mem_map] at hm
    obtain ⟨p, hp, rfl⟩ := hm
    simpa using hfresh p hp
  · simp [triggerByType, triggerFn, triggerCore, hv, hasCallbacks, hb, hd,
          runList_pure]
  · intro j hj
    rw [countP_calls]
    exact List.count_eq_one_of_mem hnd hj

/-- Handlers used in the C3 witness. -/
def c3ps : List (Nat × (Nat → EventObject → Val)) :=
  [(1, fun _ _ => Val.vBool true), (2, fun _ _ => Val.vBool false)]

/-- Dispatcher with two registered handlers used in the C3 witness. -/
def c3State : DState :=
  { mkDispatcher [Rule.text "T"] false with callbacks := [("T", pureBucket c3ps)] }

/-- The fresh third handler registered in the C3 witness. -/
def c3NewHandler : Handler := (3, HBody.done fun _ _ => Val.vUndef)

/-- Claim C3 witness: the theorem applied to a dispatcher with two
registered handlers and a third fresh one being registered. -/
theorem claim3_witness :
    onFn 1 c3State "T" c3NewHandler none =
      .ok ({ c3State with
               callbacks := alSet c3State.callbacks "T" (pureBucket c3ps ++ [c3NewHandler]) },
           []) ∧
    triggerByType 1 c3State "T" [("x", Val.vNum 7)] =
      .ok (some (c3ps.map fun p =>
                   p.2 c3State.callbackContext (mkEvent "T" [("x", Val.vNum 7)])),
           { c3State with
               lastEvents := alSet c3State.lastEvents "T" (mkEvent "T" [("x", Val.vNum 7)]) },
           c3ps.map fun p =>
             (p.1, c3State.callbackContext, mkEvent "T" [("x", Val.vNum 7)])) ∧
    (c3ps.map fun p =>
       p.2 c3State.callbackContext (mkEvent "T" [("x", Val.vNum 7)])).length =
      c3ps.length ∧
    ∀ j ∈ c3ps.map Prod.fst,
      ((c3ps.map fun p =>
          (p.1, c3State.callbackContext, mkEvent "T" [("x", Val.vNum 7)])).countP
        (fun c => c.1 == j)) = 1 :=
  claim3_trigger_invokes_in_order 1 c3State "T" [("x", Val.vNum 7)]
    c3NewHandler c3ps rfl rfl rfl rfl
    (by intro p hp; fin_cases hp <;> simp [c3NewHandler]) (by simp [c3ps])

/-! ### Claim C5 -/

/-- Claim C5 (amended): for payloads that do not themselves contain a key
named `type` (and have no duplicate keys), `trigger(T, payload)`
constructs an event object whose `type` field is T and whose remaining
fields are exactly the payload's fields in order, caches it under T, and
delivers exactly that object to every handler.  A payload key named
`type`, however, overwrites the event object's `type` field (see the
counterexample), so the claim's "for all payloads" does not hold. -/
theorem claim5_event_type_field (fuel : Nat) (s : DState) (t : String)
    (args : Payload) (ps : List (Nat × (Nat → EventObject → Val)))
    (hnt : "type" ∉ args.map Prod.fst)
    (hnd : (args.map Prod.fst).Nodup)
    (hv : isValidEvent s.validEventTypes [t] = true)
    (hd : s.disabled = false)
    (hb : alGet s.callbacks t = some (pureBucket ps)) :
    mkEvent t args = ("type", Val.vStr t) :: args ∧
    triggerByType fuel s t args =
      .ok (some (ps.map fun p =>
                   p.2 s.callbackContext (("type", Val.vStr t) :: args)),
           { s with lastEvents := alSet s.lastEvents t (("type", Val.vStr t) :: args) },
           ps.map fun p =>
             (p.1, s.callbackContext, ("type", Val.vStr t) :: args)) ∧
    getLastEventObjectOf
        { s with lastEvents := alSet s.lastEvents t (("type", Val.vStr t) :: args) } t =
      some (("type", Val.vStr t) :: args) := by
  have hm := mkEvent_no_type_key t args hnt hnd
  refine ⟨hm, ?_, ?_⟩
  · simp [triggerByType, triggerFn, triggerCore, hv, hasCallbacks, hb, hd,
          runList_pure, hm]
  · simp [getLastEventObjectOf, alGet_alSet_self]

/-- The C5 run: trigger `"click"` with a payload containing a `type` key
on a default-ruleset dispatcher, and read back the cached event object. -/
def c5Cached : Option EventObject :=
  match triggerByType 1 (mkDispatcher defaultRules false) "click"
          [("type", Val.vStr "evil")] with
  | .ok (_, s, _) => getLastEventObjectOf s "click"
  | .error _ => none

/-- Claim C5 counterexample: the payload `{type: "evil"}` overwrites the
event object's `type` field, so the object delivered and cached for the
dispatch type `"click"` has `type = "evil"`, not `"click"`. -/
theorem claim5_counterexample :
    mkEvent "click" [("type", Val.vStr "evil")] = [("type", Val.vStr "evil")] ∧
    c5Cached = some [("type", Val.vStr "evil")] := by
  constructor
  · rfl
  · simp [c5Cached, triggerByType, triggerFn, triggerCore, mkDispatcher,
          defaultRules, isValidEvent, isValidOuter, isValidInner, ruleMatches,
          hasCallbacks, alGet, alSet, mkEvent, getLastEventObjectOf]

/-- Handler pair list used in the C5 witness. -/
def c5ps : List (Nat × (Nat → EventObject → Val)) := [(1, fun _ _ => Val.vUndef)]

/-- Dispatcher with one registered handler used in the C5 witness. -/
def c5State : DState :=
  { mkDispatcher [Rule.text "click"] false with
      callbacks := [("click", pureBucket c5ps)] }

/-- The event object the C5 witness expects to be built from `{x: 1}`. -/
def c5Evt : EventObject := ("type", Val.vStr "click") :: [("x", Val.vNum 1)]

/-- Claim C5 witness: the amended theorem applied to payload `{x: 1}`. -/
theorem claim5_witness :
    mkEvent "click" [("x", Val.vNum 1)] = c5Evt ∧
    triggerByType 1 c5State "click" [("x", Val.vNum 1)] =
      .ok (some (c5ps.map fun p => p.2 c5State.callbackContext c5Evt),
           { c5State with lastEvents := alSet c5State.lastEvents "click" c5Evt },
           c5ps.map fun p => (p.1, c5State.callbackContext, c5Evt)) ∧
    getLastEventObjectOf
        { c5State with lastEvents := alSet c5State.lastEvents "click" c5Evt } "click" =
      some c5Evt :=
  claim5_event_type_field 1 c5State "click" [("x", Val.vNum 1)] c5ps
    (by decide) (by decide) rfl rfl rfl

/-! ### Claim C6 -/

/-- Claim C6 (amended): the `one` wrapper deregisters itself via `off`
before forwarding arguments, context and return value to the original
handler h, so (first block, plain h) `one(T, h)` followed by two
sequential `trigger(T)` calls invokes h exactly once, and (second block,
h = `seqTrigger t argsR (done g)`, a handler that re-triggers T during
its OWN execution) the re-entrant trigger cannot re-invoke h: the
wrapper is already out of the bucket when h runs, so h's own trigger of
T delivers to nobody (it only re-caches its event) and h is still
invoked exactly once, with h's return value forwarded.  The claim's
stronger "at most once across any number of trigger(T) calls including
re-entrant triggers" is false for re-entrant triggers performed by OTHER
handlers: a handler registered before the wrapper that re-triggers T
makes the stale `Array.from` snapshot of the outer trigger invoke the
already-deregistered wrapper a second time (see the counterexample). -/
theorem claim6_one_fires_once_sequential (fuel₁ fuel₂ fuel₃ fuel₄ fuel₅ fuel₆ : Nat)
    (s : DState) (t : String) (i j : Nat) (f g : Nat → EventObject → Val)
    (argsR args₁ args₂ : Payload)
    (hv : isValidEvent s.validEventTypes [t] = true)
    (hb : alGet s.callbacks t = none)
    (hle : alGet s.lastEvents t = none)
    (hd : s.disabled = false)
    (hni : i ≠ s.nextId)
    (hnj : j ≠ s.nextId) :
    (∃ s₁ s₂ s₃,
      oneFn fuel₁ s t (i, HBody.done f) none = .ok (s₁, []) ∧
      triggerByType fuel₂ s₁ t args₁ =
        .ok (some [f s.callbackContext (mkEvent t args₁)], s₂,
             [(s.nextId, s.callbackContext, mkEvent t args₁),
              (i, s.callbackContext, mkEvent t args₁)]) ∧
      triggerByType fuel₃ s₂ t args₂ = .ok (some [], s₃, []) ∧
      ([(s.nextId, s.callbackContext, mkEvent t args₁),
        (i, s.callbackContext, mkEvent t args₁)].countP (fun c => c.1 == i)) = 1) ∧
    (∃ r₁ r₂ r₃,
      oneFn fuel₄ s t (j, HBody.seqTrigger t argsR (HBody.done g)) none = .ok (r₁, []) ∧
      triggerByType (fuel₅ + 1) r₁ t args₁ =
        .ok (some [g s.callbackContext (mkEvent t args₁)], r₂,
             [(s.nextId, s.callbackContext, mkEvent t args₁),
              (j, s.callbackContext, mkEvent t args₁)]) ∧
      triggerByType fuel₆ r₂ t args₂ = .ok (some [], r₃, []) ∧
      ([(s.nextId, s.callbackContext, mkEvent t args₁),
        (j, s.callbackContext, mkEvent t args₁)].countP (fun c => c.1 == j)) = 1) := by
  constructor
  · refine ⟨{ s with
                nextId := s.nextId + 1
                callbacks := alSet s.callbacks t [(s.nextId, HBody.wrapper t i (HBody.done f))] },
            { s with
                nextId := s.nextId + 1
                callbacks := alSet s.callbacks t []
                lastEvents := alSet s.lastEvents t (mkEvent t args₁) },
            { s with
                nextId := s.nextId + 1
                callbacks := alSet s.callbacks t []
                lastEvents := alSet s.lastEvents t (mkEvent t args₂) },
            ?_, ?_, ?_, ?_⟩
    · cases htle : s.triggerLastEvent <;>
        simp [oneFn, onFn, hv, hb, hle, htle]
    · simp [triggerByType, triggerFn, triggerCore, hv, hd, hasCallbacks,
            alGet_alSet_self, runList, execB, offFn, alSet_alSet]
    · simp [triggerByType, triggerFn, triggerCore, hv, hd, hasCallbacks,
            alGet_alSet_self, runList, alSet_alSet]
    · simp [List.countP_cons, Ne.symm hni]
  · refine ⟨{ s with
                nextId := s.nextId + 1
                callbacks := alSet s.callbacks t
                  [(s.nextId, HBody.wrapper t j (HBody.seqTrigger t argsR (HBody.done g)))] },
            { s with
                nextId := s.nextId + 1
                callbacks := alSet s.callbacks t []
                lastEvents := alSet s.lastEvents t (mkEvent t argsR) },
            { s with
                nextId := s.nextId + 1
                callbacks := alSet s.callbacks t []
                lastEvents := alSet s.lastEvents t (mkEvent t args₂) },
            ?_, ?_, ?_, ?_⟩
    · cases htle : s.triggerLastEvent <;>
        simp [oneFn, onFn, hv, hb, hle, htle]
    · simp [triggerByType, triggerFn, triggerCore, hv, hd, hasCallbacks,
            alGet_alSet_self, runList, execB, offFn, alSet_alSet]
    · simp [triggerByType, triggerFn, triggerCore, hv, hd, hasCallbacks,
            alGet_alSet_self, runList, alSet_alSet]
    · simp [List.countP_cons, Ne.symm hnj]

/-- A handler that re-triggers `"T"` once (guarded by the `stop` payload
field), registered BEFORE the `one` wrapper in the C6 counterexample. -/
def c6Retrigger : Handler :=
  (1, .branch (fun e => (alGet e "stop").isSome)
        (.done fun _ _ => Val.vUndef)
        (.seqTrigger "T" [("stop", Val.vNum 1)] (.done fun _ _ => Val.vUndef)))

/-- The original handler given to `one` in the C6 counterexample. -/
def c6Original : Handler := (2, .done fun _ _ => Val.vBool true)

/-- The C6 run: `on("T", g)` with the re-triggering handler, then
`one("T", h)`, then a single `trigger("T")`; the result is the full call
trace. -/
def c6Final : Option (List Call) :=
  match onFn 9 (mkDispatcher [Rule.text "T"] false) "T" c6Retrigger none with
  | .ok (s1, _) =>
      match oneFn 9 s1 "T" c6Original none with
      | .ok (s2, _) =>
          match triggerByType 9 s2 "T" [] with
          | .ok (_, _, tr) => some tr
          | .error _ => none
      | .error _ => none
  | .error _ => none

/-- Claim C6 counterexample: with a re-entrant trigger of T performed by
an earlier handler, the original handler (id 2) registered through
`one("T", ·)` is invoked TWICE by a single outer `trigger("T")` (once
from the re-entrant trigger's delivery, once from the outer trigger's
stale snapshot, which still contains the already-deregistered wrapper,
id 0), refuting "invoked at most once across any number of trigger(T)
calls". -/
theorem claim6_counterexample :
    (c6Final.map (fun tr => tr.map (fun (c : Call) => c.1))) =
      some [1, 1, 0, 2, 0, 2] ∧
    (c6Final.map (fun tr => tr.countP (fun (c : Call) => c.1 == 2))) = some 2 := by
  constructor <;>
    simp [c6Final, c6Retrigger, c6Original, onFn, oneFn, offFn, triggerByType,
          triggerFn, triggerCore, runList, execB, hasCallbacks, mkDispatcher,
          isValidEvent, isValidOuter, isValidInner, ruleMatches, alGet, alSet,
          mkEvent]

/-- The fresh dispatcher used in the C6 witness. -/
def c6WitStart : DState := mkDispatcher [Rule.text "T"] false

/-- The plain handler function used in the C6 witness. -/
def c6WitF : Nat → EventObject → Val := fun _ _ => Val.vBool true

/-- The handler function returned by the re-entrant handler in the C6
witness. -/
def c6WitG : Nat → EventObject → Val := fun _ _ => Val.vBool false

/-- Claim C6 witness: the amended theorem applied to a fresh dispatcher,
a plain handler (id 7) and a handler that re-triggers `"T"` during its
own execution (id 8), each followed by two triggers. -/
theorem claim6_witness :
    (∃ s₁ s₂ s₃,
      oneFn 3 c6WitStart "T" (7, HBody.done c6WitF) none = .ok (s₁, []) ∧
      triggerByType 3 s₁ "T" [] =
        .ok (some [c6WitF c6WitStart.callbackContext (mkEvent "T" [])], s₂,
             [(c6WitStart.nextId, c6WitStart.callbackContext, mkEvent "T" []),
              (7, c6WitStart.callbackContext, mkEvent "T" [])]) ∧
      triggerByType 3 s₂ "T" [] = .ok (some [], s₃, []) ∧
      ([(c6WitStart.nextId, c6WitStart.callbackContext, mkEvent "T" []),
        (7, c6WitStart.callbackContext, mkEvent "T" [])].countP
         (fun c => c.1 == 7)) = 1) ∧
    (∃ r₁ r₂ r₃,
      oneFn 3 c6WitStart "T"
          (8, HBody.seqTrigger "T" [("y", Val.vNum 5)] (HBody.done c6WitG)) none =
        .ok (r₁, []) ∧
      triggerByType (2 + 1) r₁ "T" [] =
        .ok (some [c6WitG c6WitStart.callbackContext (mkEvent "T" [])], r₂,
             [(c6WitStart.nextId, c6WitStart.callbackContext, mkEvent "T" []),
              (8, c6WitStart.callbackContext, mkEvent "T" [])]) ∧
      triggerByType 3 r₂ "T" [] = .ok (some [], r₃, []) ∧
      ([(c6WitStart.nextId, c6WitStart.callbackContext, mkEvent "T" []),
        (8, c6WitStart.callbackContext, mkEvent "T" [])].countP
         (fun c => c.1 == 8)) = 1) :=
  claim6_one_fires_once_sequential 3 3 3 3 2 3 c6WitStart "T" 7 8 c6WitF c6WitG
    [("y", Val.vNum 5)] [] [] rfl rfl rfl rfl (by decide) (by decide)

/-! ### Claim C7 -/

/-- `off` never raises on a valid event type. -/
theorem offFn_ok (s : DState) (u : String) (ocb : Option Nat)
    (hv : isValidEvent s.validEventTypes [u] = true) :
    ∃ s', offFn s u ocb = .ok s' := by
  by_cases h : hasCallbacks s u = true <;> cases ocb <;> simp [offFn, hv, h]

/-- `on` never raises on a valid event type when no last event is cached
for it (so no replay happens). -/
theorem onFn_ok_nocache (fuel : Nat) (s : DState) (u : String) (cb : Handler)
    (opts : Option Bool)
    (hv : isValidEvent s.validEventTypes [u] = true)
    (hle : alGet s.lastEvents u = none) :
    ∃ s', onFn fuel s u cb opts = .ok (s', []) := by
  cases hcb : alGet s.callbacks u <;>
    cases htle : (opts.getD false || s.triggerLastEvent) <;>
    simp [onFn, hv, hcb, htle, hle]

/-- Claim C7 (amended): `on`, `one`, `off` and `trigger` raise
InvalidEventType for the supplied event type exactly when it fails the
ruleset, and such a rejection happens before any state mutation or
handler invocation: the error carries the unmodified state and no call
is recorded.  Conversely, on a valid type none of the four operations
raises by itself (shown here for plain registered handlers and an empty
replay cache); the unconditional "iff" of the claim fails because an
error raised by a handler that an operation invokes propagates out of
the operation even though the supplied type is valid, with the mutations
made before the handler ran persisting (see the counterexample). -/
theorem claim7_validation_rejection (fuel : Nat) (s : DState) (t u : String)
    (i : Nat) (f : Nat → EventObject → Val) (opts : Option Bool)
    (ocb : Option Nat) (args : Payload)
    (ps : List (Nat × (Nat → EventObject → Val)))
    (hit : isValidEvent s.validEventTypes [t] = false)
    (hvu : isValidEvent s.validEventTypes [u] = true)
    (hbu : alGet s.callbacks u = some (pureBucket ps))
    (hle : alGet s.lastEvents u = none) :
    onFn fuel s t (i, HBody.done f) opts = .error (.invalidType t, s) ∧
    oneFn fuel s t (i, HBody.done f) opts = .error (.invalidType t, s) ∧
    offFn s t ocb = .error (.invalidType t, s) ∧
    triggerByType fuel s t args = .error (.invalidType t, s) ∧
    (∃ s', offFn s u ocb = .ok s') ∧
    (∃ s', onFn fuel s u (i, HBody.done f) opts = .ok (s', [])) ∧
    (∃ s', oneFn fuel s u (i, HBody.done f) opts = .ok (s', [])) ∧
    (∃ r s' tr, triggerByType fuel s u args = .ok (r, s', tr)) := by
  refine ⟨by simp [onFn, hit], by simp [oneFn, hit], by simp [offFn, hit],
          by simp [triggerByType, triggerFn, triggerCore, hit],
          offFn_ok s u ocb hvu, onFn_ok_nocache fuel s u _ opts hvu hle, ?_, ?_⟩
  · have h := onFn_ok_nocache fuel { s with nextId := s.nextId + 1 } u
      (s.nextId, HBody.wrapper u i (HBody.done f)) opts hvu hle
    obtain ⟨s', hs'⟩ := h
    exact ⟨s', by simp [oneFn, hvu, hs']⟩
  · cases hd : s.disabled
    · exact ⟨some (ps.map fun p => p.2 s.callbackContext (mkEvent u args)),
             { s with lastEvents := alSet s.lastEvents u (mkEvent u args) },
             ps.map (fun p => (p.1, s.callbackContext, mkEvent u args)),
             by simp [triggerByType, triggerFn, triggerCore, hvu, hasCallbacks,
                      hbu, hd, runList_pure]⟩
    · exact ⟨none, { s with lastEvents := alSet s.lastEvents u (mkEvent u args) }, [],
             by simp [triggerByType, triggerFn, triggerCore, hvu, hd]⟩

/-- The replayed handler in the C7 counterexample: it re-triggers the
invalid event type `"bad"`. -/
def c7BadHandler : Handler :=
  (1, .seqTrigger "bad" [] (.done fun _ _ => Val.vUndef))

/-- The C7 run: trigger `"T"` once (so a last event is cached), then
register the bad handler with `triggerLastEvent: true`; the replay
invokes the handler, whose re-entrant trigger of `"bad"` raises.  The
result is the error and the state carried by the throw. -/
def c7Final : Option (DErr × DState) :=
  match triggerByType 2 (mkDispatcher [Rule.text "T"] false) "T" [] with
  | .ok (_, s1, _) =>
      match onFn 2 s1 "T" c7BadHandler (some true) with
      | .error (err, serr) => some (err, serr)
      | .ok _ => none
  | .error _ => none

/-- Claim C7 counterexample: `on("T", h, {triggerLastEvent: true})` is
called with the VALID type `"T"`, yet raises InvalidEventType (for
`"bad"`, re-triggered by the replayed handler), and the dispatcher state
after the rejected call is NOT as it was before: the handler (id 1) is
already registered in the `"T"` bucket.  This refutes both directions of
the claim ("raises iff the supplied type fails R" and "state is exactly
as it was before the call"). -/
theorem claim7_counterexample :
    isValidEvent [Rule.text "T"] ["T"] = true ∧
    (c7Final.map (fun p =>
       p.2.callbacks.map (fun (q : String × List Handler) => (q.1, q.2.map Prod.fst)))) =
      some [("T", [1])] ∧
    (c7Final.map (fun p =>
       match p.1 with | .invalidType v => v | .outOfFuel => "fuel")) = some "bad" := by
  refine ⟨rfl, ?_, ?_⟩ <;>
    simp [c7Final, c7BadHandler, onFn, offFn, triggerByType, triggerFn, triggerCore,
          runList, execB, hasCallbacks, mkDispatcher, isValidEvent, isValidOuter,
          isValidInner, ruleMatches, alGet, alSet, mkEvent]

/-- Handler pair list used in the C7 witness. -/
def c7ps : List (Nat × (Nat → EventObject → Val)) := [(5, fun _ _ => Val.vBool true)]

/-- Dispatcher used in the C7 witness: rules accept only `"T"`, one plain
handler registered for `"T"`, empty cache. -/
def c7WitState : DState :=
  { mkDispatcher [Rule.text "T"] false with callbacks := [("T", pureBucket c7ps)] }

/-- Claim C7 witness: the amended theorem applied with invalid type
`"bad"` and valid type `"T"`. -/
theorem claim7_witness :
    onFn 2 c7WitState "bad" (9, HBody.done fun _ _ => Val.vUndef) none =
      .error (.invalidType "bad", c7WitState) ∧
    oneFn 2 c7WitState "bad" (9, HBody.done fun _ _ => Val.vUndef) none =
      .error (.invalidType "bad", c7WitState) ∧
    offFn c7WitState "bad" (some 5) = .error (.invalidType "bad", c7WitState) ∧
    triggerByType 2 c7WitState "bad" [] = .error (.invalidType "bad", c7WitState) ∧
    (∃ s', offFn c7WitState "T" (some 5) = .ok s') ∧
    (∃ s', onFn 2 c7WitState "T" (9, HBody.done fun _ _ => Val.vUndef) none = .ok (s', [])) ∧
    (∃ s', oneFn 2 c7WitState "T" (9, HBody.done fun _ _ => Val.vUndef) none = .ok (s', [])) ∧
    (∃ r s' tr, triggerByType 2 c7WitState "T" [] = .ok (r, s', tr)) :=
  claim7_validation_rejection 2 c7WitState "bad" "T" 9
    (fun _ _ => Val.vUndef) none (some 5) [] c7ps rfl rfl rfl rfl

/-! ### Claim C9 -/

/-- Claim C9: when `on(T, h, options)` is called with
`options.triggerLastEvent` true, or the dispatcher-wide default
`triggerLastEvent` is true, and the last-event cache holds an entry for
T, the handler is invoked exactly once, synchronously within the `on`
call itself, with the cached event object as sole argument and the
current invocation context as receiver; the cache and configuration are
untouched. -/
theorem claim9_trigger_last_event_replay (fuel : Nat) (s : DState) (t : String)
    (i : Nat) (f : Nat → EventObject → Val) (opts : Option Bool) (e : EventObject)
    (hv : isValidEvent s.validEventTypes [t] = true)
    (hflag : (opts.getD false || s.triggerLastEvent) = true)
    (hce : alGet s.lastEvents t = some e) :
    ∃ s', onFn fuel s t (i, HBody.done f) opts = .ok (s', [(i, s.callbackContext, e)]) ∧
      s'.lastEvents = s.lastEvents ∧ s'.callbackContext = s.callbackContext ∧
      s'.validEventTypes = s.validEventTypes := by
  cases hcb : alGet s.callbacks t with
  | none =>
      exact ⟨{ s with callbacks := alSet s.callbacks t [(i, HBody.done f)] },
             by simp [onFn, hv, hflag, hcb, hce, execB], rfl, rfl, rfl⟩
  | some l =>
      by_cases ha : l.any (fun h => h.1 == i) = true
      · exact ⟨{ s with callbacks := alSet s.callbacks t l },
               by simp [onFn, hv, hflag, hcb, ha, hce, execB], rfl, rfl, rfl⟩
      · exact ⟨{ s with callbacks := alSet s.callbacks t (l ++ [(i, HBody.done f)]) },
               by simp [onFn, hv, hflag, hcb, ha, hce, execB], rfl, rfl, rfl⟩

/-- The cached event object in the C9 witness (as produced by
`trigger("click", {x: 1})`). -/
def c9Evt : EventObject := [("type", Val.vStr "click"), ("x", Val.vNum 1)]

/-- Dispatcher constructed with `triggerLastEvent` default true, with a
cached last event for `"click"`, used in the C9 witness. -/
def c9State : DState :=
  { mkDispatcher [Rule.text "click"] true with lastEvents := [("click", c9Evt)] }

/-- Claim C9 witness: the theorem applied to the spec's scenario: default
`triggerLastEvent = true`, cached `{type: "click", x: 1}`, then
`on("click", h)` invokes h immediately with the cached event. -/
theorem claim9_witness :
    ∃ s', onFn 1 c9State "click" (1, HBody.done fun _ _ => Val.vUndef) none =
        .ok (s', [(1, c9State.callbackContext, c9Evt)]) ∧
      s'.lastEvents = c9State.lastEvents ∧
      s'.callbackContext = c9State.callbackContext ∧
      s'.validEventTypes = c9State.validEventTypes :=
  claim9_trigger_last_event_replay 1 c9State "click" 1 (fun _ _ => Val.vUndef)
    none c9Evt rfl rfl rfl

/-! ### Claim C8 -/

/-- Claim C8: registration is idempotent per (type, handler) pair. -/
theorem claim8_on_idempotent (fuel : Nat) (s : DState) (t : String) (i : Nat)
    (f : Nat → EventObject → Val) (args : Payload)
    (ps : List (Nat × (Nat → EventObject → Val)))
    (hv : isValidEvent s.validEventTypes [t] = true)
    (hd : s.disabled = false)
    (hb : alGet s.callbacks t = some (pureBucket ps))
    (hle : alGet s.lastEvents t = none)
    (hfresh : ∀ p ∈ ps, p.1 ≠ i) :
    onFn fuel s t (i, HBody.done f) none =
      .ok ({ s with callbacks := alSet s.callbacks t (pureBucket (ps ++ [(i, f)])) }, []) ∧
    onFn fuel { s with callbacks := alSet s.callbacks t (pureBucket (ps ++ [(i, f)])) }
        t (i, HBody.done f) none =
      .ok ({ s with callbacks := alSet s.callbacks t (pureBucket (ps ++ [(i, f)])) }, []) ∧
    triggerByType fuel
        { s with callbacks := alSet s.callbacks t (pureBucket (ps ++ [(i, f)])) } t args =
      .ok (some ((ps ++ [(i, f)]).map fun p => p.2 s.callbackContext (mkEvent t args)),
           { s with
               callbacks := alSet s.callbacks t (pureBucket (ps ++ [(i, f)]))
               lastEvents := alSet s.lastEvents t (mkEvent t args) },
           (ps ++ [(i, f)]).map fun p => (p.1, s.callbackContext, mkEvent t args)) ∧
    (((ps ++ [(i, f)]).map fun p => (p.1, s.callbackContext, mkEvent t args)).countP
       (fun c => c.1 == i)) = 1 := by
  have hnotin : i ∉ ps.map Prod.fst := by
    intro hm
    obtain ⟨p, hp, hpe⟩ := List.mem_map.mp hm
    exact hfresh p hp hpe
  have hanyfalse : (pureBucket ps).any (fun h => h.1 == i) = false := by
    rw [List.any_eq_false]
    intro h hm
    simp only [pureBucket, List.mem_map] at hm
    obtain ⟨p, hp, rfl⟩ := hm
    simpa using hfresh p hp
  have hsplit : pureBucket ps ++ [(i, HBody.done f)] = pureBucket (ps ++ [(i, f)]) := by
    simp [pureBucket]
  have hanytrue : (pureBucket (ps ++ [(i, f)])).any (fun h => h.1 == i) = true := by
    simp [pureBucket]
  refine ⟨?_, ?_, ?_, ?_⟩
  · rw [← hsplit]
    exact onFn_append fuel s t (i, HBody.done f) _ hv hb hanyfalse hle
  · cases htle : s.triggerLastEvent <;>
      simp [onFn, hv, alGet_alSet_self, alSet_alSet, hle, htle, hanytrue]
  · simp [triggerByType, triggerFn, triggerCore, hv, hd, hasCallbacks,
          alGet_alSet_self, runList_pure]
  · rw [countP_calls]
    simp [List.count_append, List.count_eq_zero_of_not_mem hnotin]

/-- Handler pair list used in the C8 witness. -/
def c8ps : List (Nat × (Nat → EventObject → Val)) := [(1, fun _ _ => Val.vBool true)]

/-- The return function of the handler registered twice in the C8 witness. -/
def c8f : Nat → EventObject → Val := fun _ _ => Val.vUndef

/-- Dispatcher with one registered handler used in the C8 witness. -/
def c8State : DState :=
  { mkDispatcher [Rule.text "T"] false with callbacks := [("T", pureBucket c8ps)] }

/-- Claim C8 witness: the theorem applied to a dispatcher with one prior
handler and handler id 2 registered twice. -/
theorem claim8_witness :
    onFn 1 c8State "T" (2, HBody.done c8f) none =
      .ok ({ c8State with
               callbacks := alSet c8State.callbacks "T" (pureBucket (c8ps ++ [(2, c8f)])) },
           []) ∧
    onFn 1 { c8State with
               callbacks := alSet c8State.callbacks "T" (pureBucket (c8ps ++ [(2, c8f)])) }
        "T" (2, HBody.done c8f) none =
      .ok ({ c8State with
               callbacks := alSet c8State.callbacks "T" (pureBucket (c8ps ++ [(2, c8f)])) },
           []) ∧
    triggerByType 1
        { c8State with
            callbacks := alSet c8State.callbacks "T" (pureBucket (c8ps ++ [(2, c8f)])) }
        "T" [] =
      .ok (some ((c8ps ++ [(2, c8f)]).map fun (p : Nat × (Nat → EventObject → Val)) =>
                   p.2 c8State.callbackContext (mkEvent "T" [])),
           { c8State with
               callbacks := alSet c8State.callbacks "T" (pureBucket (c8ps ++ [(2, c8f)]))
               lastEvents := alSet c8State.lastEvents "T" (mkEvent "T" []) },
           (c8ps ++ [(2, c8f)]).map fun (p : Nat × (Nat → EventObject → Val)) =>
             (p.1, c8State.callbackContext, mkEvent "T" [])) ∧
    (((c8ps ++ [(2, c8f)]).map fun (p : Nat × (Nat → EventObject → Val)) =>
        (p.1, c8State.callbackContext, mkEvent "T" [])).countP (fun (c : Call) => c.1 == 2)) = 1 :=
  claim8_on_idempotent 1 c8State "T" 2 c8f [] c8ps
    rfl rfl rfl rfl (by intro p hp; fin_cases hp <;> simp)

/-! ### Claim C10 -/

/-- Claim C10: every instance constructed from the class returned by
`Api()` owns a freshly created dispatcher that shares only the
originating dispatcher's `validEventTypes` and `triggerLastEvent`
configuration (empty registry and cache, enabled, independent of every
other field of the origin), and operations performed through one host
instance act only on that host's own dispatcher: a handler registered on
one host is not seen by a sibling host constructed from the same class,
whose trigger finds no handlers; in this state-passing embedding host
operations take only the host's own state, so they cannot touch the
originating dispatcher at all. -/
theorem claim10_api_isolated_instances (fuel : Nat) (s sAlt : DState) (t : String)
    (args : Payload) (i : Nat) (f : Nat → EventObject → Val)
    (hv : isValidEvent s.validEventTypes [t] = true)
    (hr : sAlt.validEventTypes = s.validEventTypes)
    (htl : sAlt.triggerLastEvent = s.triggerLastEvent) :
    (hostNew s).ed.validEventTypes = s.validEventTypes ∧
    (hostNew s).ed.triggerLastEvent = s.triggerLastEvent ∧
    (hostNew s).ed.callbacks = [] ∧
    (hostNew s).ed.lastEvents = [] ∧
    (hostNew s).ed.disabled = false ∧
    hostNew sAlt = hostNew s ∧
    hostOn fuel (hostNew s) t (i, HBody.done f) =
      .ok (⟨{ (hostNew s).ed with callbacks := alSet [] t [(i, HBody.done f)] }⟩, []) ∧
    hostTrigger fuel (hostNew s) (.inl t) (some args) =
      .ok (none, ⟨{ (hostNew s).ed with lastEvents := alSet [] t (mkEvent t args) }⟩, []) ∧
    hostTrigger fuel ⟨{ (hostNew s).ed with callbacks := alSet [] t [(i, HBody.done f)] }⟩
        (.inl t) (some args) =
      .ok (some [f 0 (mkEvent t args)],
           ⟨{ (hostNew s).ed with
                callbacks := alSet [] t [(i, HBody.done f)]
                lastEvents := alSet [] t (mkEvent t args) }⟩,
           [(i, 0, mkEvent t args)]) := by
  refine ⟨rfl, rfl, rfl, rfl, rfl, ?_, ?_, ?_, ?_⟩
  · simp [hostNew, apiNewInstance, mkDispatcher, hr, htl]
  · cases htle : s.triggerLastEvent <;>
      simp [hostOn, onFn, hostNew, apiNewInstance, mkDispatcher, hv, htle, alGet]
  · simp [hostTrigger, triggerFn, triggerCore, hostNew, apiNewInstance,
          mkDispatcher, hv, hasCallbacks, alGet]
  · simp [hostTrigger, triggerFn, triggerCore, hostNew, apiNewInstance,
          mkDispatcher, hv, hasCallbacks, alGet_alSet_self, runList, execB, alGet]

/-- Originating dispatcher used in the C10 witness. -/
def c10Origin : DState := mkDispatcher [Rule.text "T"] false

/-- A sibling originating state with the same configuration but a
different `disabled` flag, used in the C10 witness. -/
def c10OriginAlt : DState := { mkDispatcher [Rule.text "T"] false with disabled := true }

/-- Claim C10 witness: the theorem applied to a concrete origin and
sibling host instances. -/
theorem claim10_witness :
    (hostNew c10Origin).ed.validEventTypes = c10Origin.validEventTypes ∧
    (hostNew c10Origin).ed.triggerLastEvent = c10Origin.triggerLastEvent ∧
    (hostNew c10Origin).ed.callbacks = [] ∧
    (hostNew c10Origin).ed.lastEvents = [] ∧
    (hostNew c10Origin).ed.disabled = false ∧
    hostNew c10OriginAlt = hostNew c10Origin ∧
    hostOn 1 (hostNew c10Origin) "T" (4, HBody.done fun _ _ => Val.vUndef) =
      .ok (⟨{ (hostNew c10Origin).ed with
                callbacks := alSet [] "T" [(4, HBody.done fun _ _ => Val.vUndef)] }⟩, []) ∧
    hostTrigger 1 (hostNew c10Origin) (.inl "T") (some [("x", Val.vNum 2)]) =
      .ok (none, ⟨{ (hostNew c10Origin).ed with
                      lastEvents := alSet [] "T" (mkEvent "T" [("x", Val.vNum 2)]) }⟩, []) ∧
    hostTrigger 1 ⟨{ (hostNew c10Origin).ed with
                       callbacks := alSet [] "T" [(4, HBody.done fun _ _ => Val.vUndef)] }⟩
        (.inl "T") (some [("x", Val.vNum 2)]) =
      .ok (some [(fun (_ : Nat) (_ : EventObject) => Val.vUndef) 0
                   (mkEvent "T" [("x", Val.vNum 2)])],
           ⟨{ (hostNew c10Origin).ed with
                callbacks := alSet [] "T" [(4, HBody.done fun _ _ => Val.vUndef)]
                lastEvents := alSet [] "T" (mkEvent "T" [("x", Val.vNum 2)]) }⟩,
           [(4, 0, mkEvent "T" [("x", Val.vNum 2)])]) :=
  claim10_api_isolated_instances 1 c10Origin c10OriginAlt "T" [("x", Val.vNum 2)] 4
    (fun _ _ => Val.vUndef) rfl rfl rfl
